import Mathlib

/-!
Verification development for the GraphQLer dependency-aware GraphQL fuzzer
core.  The Python sources under study are shallowly embedded below:

* `parse_gql_object` embeds `compiler/resolvers/object_dependency_resolver.py`
  (`ObjectDepdenencyResolver.parse_gql_object`).
* `materialize_in` embeds the input side of
  `fuzzer/fengine/materializers/regular_materializer.py`
  (`materialize_input_field` / `materialize_inputs`); `materialize_out`
  embeds the output side (`materialize_output` /
  `materialize_output_object_fields`).
* `Retrier_retry` embeds `fuzzer/fengine/retrier/retrier.py`.
* `run_regular_mutation` / `run_regular_query` embed
  `fuzzer/fengine/fengine.py`.

Python exceptions are modelled by an `Except PyErr` result; Python's
recursion is modelled by an explicit step counter (`fuel`): a genuinely
terminating recursion yields the same `.ok` answer for every sufficiently
large fuel, while an unbounded recursion yields `.error .recursionError`
for every fuel.  Mutable state that the Python code threads through calls
(the materializer's `used_objects` map, the output-side `used_objects`
visit list) is passed and returned explicitly.  The objects bucket is only
ever read by the materializer in the source, so it is a plain read-only
argument there.
-/

namespace GraphQLer

/-! ## Association-list helpers (Python `dict` access on string keys) -/

/-- Python `d[k]` / `k in d` on a string-keyed dict, as an association list
lookup (first binding wins, like a dict with unique keys). -/
def alookup {α : Type} (k : String) : List (String × α) → Option α
  | [] => none
  | (k2, v) :: rest => if k2 = k then some v else alookup k rest

/-- Python `d[k] = v`: replace the binding of `k`, or append it. -/
def aupsert {α : Type} (k : String) (v : α) : List (String × α) → List (String × α)
  | [] => [(k, v)]
  | (k2, v2) :: rest => if k2 = k then (k, v) :: rest else (k2, v2) :: aupsert k v rest

/-- Python `del d[k]` (used by the bucket-remove helper). -/
def aremove {α : Type} (k : String) (l : List (String × α)) : List (String × α) :=
  l.filter (fun p => p.1 ≠ k)

/-! ## Constants (`src/constants.py`) -/

def BUILT_IN_TYPES : List String := ["ID", "Int", "Float", "String", "Boolean"]

def BUILT_IN_TYPE_KINDS : List String :=
  ["SCALAR", "OBJECT", "INTERFACE", "UNION", "ENUM", "INPUT_OBJECT", "LIST", "NON_NULL"]

def MAX_OBJECT_CYCLES : Nat := 2

def MAX_OUTPUT_SELECTOR_DEPTH : Nat := 2

def HARD_CUTOFF_DEPTH : Nat := 10

def MAX_INPUT_DEPTH : Nat := 10

def NO_DATA_COUNT_AS_SUCCESS : Bool := false

/-! ## The parsed type-descriptor model

A `TypeDescriptor` dict of the compiled schema: `name`, `kind`, `type`
(named type, a string) and `ofType` (a nested descriptor dict for
LIST/NON_NULL wrappers, else absent/None). -/

inductive Desc where
  | mk (name kind type : String) (ofType : Option Desc)

def Desc.name : Desc → String
  | .mk n _ _ _ => n

def Desc.kind : Desc → String
  | .mk _ k _ _ => k

def Desc.type : Desc → String
  | .mk _ _ t _ => t

def Desc.ofType : Desc → Option Desc
  | .mk _ _ _ o => o

/-- The Python exceptions the embedded code can raise.  `bdb.BdbQuit`, which
`FEngine` deliberately re-raises, is the debugger's external abort request:
none of the embedded operations raises it, so it is not a value of this
type. -/
inductive PyErr where
  | typeError
  | keyError
  | indexError
  | unboundLocalError
  | recursionError
  | hardDependencyNotMet (name : String)
deriving DecidableEq

/-! ## Object dependency resolver
(`compiler/resolvers/object_dependency_resolver.py`, lines 39-57)

`parse_gql_object` appends `field["type"]` (a string) for unwrapped kinds
but `field["ofType"]` (a nested descriptor dict, or None) for NON_NULL and
LIST kinds, so a dependency list is heterogeneous. -/

inductive DepEntry where
  | nameRef (s : String)
  | descRef (d : Option Desc)

/-- CPython semantics of `x in list_of_strings` when `x` is a dict or
`None`: `in` compares with `==` against each element, and a dict or `None`
never equals a `str`, so membership is always `False`. -/
def py_oftype_in_str_list (_x : Option Desc) (_l : List String) : Bool := false

/-- Lines 39-57 of `object_dependency_resolver.py`: classify each field of
one object, returning `(softDependsOn, hardDependsOn)`. -/
def parse_gql_object (fields : List Desc) : List DepEntry × List DepEntry :=
  fields.foldl
    (fun acc field =>
      let soft := acc.1
      let hard := acc.2
      let soft :=
        if BUILT_IN_TYPE_KINDS.contains field.kind ∧ field.kind ≠ "NON_NULL" ∧
            field.kind ≠ "LIST" then
          if BUILT_IN_TYPES.contains field.type then soft
          else soft ++ [DepEntry.nameRef field.type]
        else soft
      if field.kind = "NON_NULL" then
        if py_oftype_in_str_list field.ofType BUILT_IN_TYPES then (soft, hard)
        else (soft, hard ++ [DepEntry.descRef field.ofType])
      else if field.kind = "LIST" then
        if py_oftype_in_str_list field.ofType BUILT_IN_TYPES then (soft, hard)
        else (soft ++ [DepEntry.descRef field.ofType], hard)
      else (soft, hard))
    ([], [])

/-! ## Input materialization
(`fuzzer/fengine/materializers/regular_materializer.py`, lines 97-164)

Randomness (`random.choice`, `get_random_scalar`) is abstracted by an
oracle.  `get_random_scalar` lives in `materializers/utils.py`, which is
not part of the sources; it is an opaque literal generator here. -/

structure Rand where
  pick : List String → String
  scalar : String → String → String

/-- One compiled query or mutation entry: its `inputs`, `output`,
`hardDependsOn`/`softDependsOn` maps (parameter name to object type name or
the sentinel UNKNOWN) and, for mutations, `mutationType`. -/
structure OperatorInfo where
  inputs : List (String × Desc)
  output : Desc
  hardDependsOn : List (String × String)
  softDependsOn : List (String × String)
  mutationType : String

/-- The objects bucket: object type name to the identifiers believed live. -/
abbrev Bucket := List (String × List String)

/-- The materializer's `used_objects` map: object type name to the exact
identifier consumed from the bucket. -/
abbrev Used := List (String × String)

/-- The input-side recursion's pending call: a single field
(`materialize_input_field` with its `check_deps` flag), the whole input map
(`materialize_inputs`), or the latter's loop over remaining inputs with the
accumulated string. -/
inductive InTask where
  | field (d : Desc) (checkDeps : Bool)
  | inputs (l : List (String × Desc))
  | goInputs (l : List (String × Desc)) (acc : String)

/-- Lines 97-164 of `regular_materializer.py`: `materialize_input_field`
and `materialize_inputs` as one fuel-indexed function over `InTask`.
Branches follow the source order: hard-dependency check (bucket hit /
UNKNOWN fallback / `HardDependencyNotMetException`), soft-dependency check
(whose bucket-hit arm evaluates `objects_bucket[hard_dependency_name]`
with `hard_dependency_name` unbound in that scope, an
`UnboundLocalError`), then NON_NULL / LIST / INPUT_OBJECT / SCALAR kinds.
The bucket is read-only: the source never writes `objects_bucket`. -/
def materialize_in (rnd : Rand) (input_objects : List (String × List (String × Desc)))
    (op : OperatorInfo) (bucket : Bucket) :
    Nat → InTask → Used → Except PyErr (String × Used)
  | 0, _, _ => .error .recursionError
  | f + 1, .field d checkDeps, used =>
    match (if checkDeps then alookup d.name op.hardDependsOn else none) with
    | some hd =>
      match alookup hd bucket with
      | some vals =>
        match vals with
        | [] => .error .indexError
        | v :: vs =>
          let val := rnd.pick (v :: vs)
          .ok ("\"" ++ val ++ "\"", aupsert hd val used)
      | none =>
        if hd = "UNKNOWN" then
          materialize_in rnd input_objects op bucket f (.field d false) used
        else
          .error (.hardDependencyNotMet hd)
    | none =>
      match (if checkDeps then alookup d.name op.softDependsOn else none) with
      | some sd =>
        match alookup sd bucket with
        | some _ => .error .unboundLocalError
        | none => materialize_in rnd input_objects op bucket f (.field d false) used
      | none =>
        if d.kind = "NON_NULL" then
          match d.ofType with
          | some inner => materialize_in rnd input_objects op bucket f (.field inner true) used
          | none => .error .keyError
        else if d.kind = "LIST" then
          match d.ofType with
          | some inner =>
            match materialize_in rnd input_objects op bucket f (.field inner true) used with
            | .ok (s, u2) => .ok ("[" ++ s ++ "]", u2)
            | .error e => .error e
          | none => .error .keyError
        else if d.kind = "INPUT_OBJECT" then
          match alookup d.type input_objects with
          | some io =>
            match materialize_in rnd input_objects op bucket f (.inputs io) used with
            | .ok (s, u2) => .ok ("\x7b" ++ s ++ "\x7d", u2)
            | .error e => .error e
          | none => .error .keyError
        else if d.kind = "SCALAR" then
          .ok (rnd.scalar d.name d.type, used)
        else
          .ok ("", used)
  | f + 1, .inputs l, used => materialize_in rnd input_objects op bucket f (.goInputs l "") used
  | f + 1, .goInputs l acc, used =>
    match l with
    | [] => .ok (acc, used)
    | (n, d) :: rest =>
      match materialize_in rnd input_objects op bucket f (.field d true) used with
      | .ok (s, u2) =>
        materialize_in rnd input_objects op bucket f
          (.goInputs rest (acc ++ n ++ ": " ++ s ++ ",")) u2
      | .error e => .error e

/-- `RegularMaterializer.materialize_input_field` (line 113). -/
def materialize_input_field (rnd : Rand) (input_objects : List (String × List (String × Desc)))
    (op : OperatorInfo) (bucket : Bucket) (fuel : Nat) (d : Desc) (checkDeps : Bool)
    (used : Used) : Except PyErr (String × Used) :=
  materialize_in rnd input_objects op bucket fuel (.field d checkDeps) used

/-- `RegularMaterializer.materialize_inputs` (line 97). -/
def materialize_inputs (rnd : Rand) (input_objects : List (String × List (String × Desc)))
    (op : OperatorInfo) (bucket : Bucket) (fuel : Nat) (l : List (String × Desc))
    (used : Used) : Except PyErr (String × Used) :=
  materialize_in rnd input_objects op bucket fuel (.inputs l) used

/-- A bucket as the data model describes it: keys are object type names
(never the sentinel `UNKNOWN`, which names no object type) and each entry
holds at least one identifier currently believed live. -/
def BucketWF (bucket : Bucket) : Prop :=
  ∀ p ∈ bucket, p.1 ≠ "UNKNOWN" ∧ p.2 ≠ []

/-! ## Output materialization
(`fuzzer/fengine/materializers/regular_materializer.py`, lines 31-95) -/

/-- Modelled from the spec: `utils/parser_utils.get_base_oftype` is not in
the sources; per §4.2 it unwraps LIST/NON_NULL wrappers down to the base
descriptor. -/
def get_base_oftype (d : Desc) : Desc :=
  match d with
  | .mk n k t (some inner) =>
    if k = "NON_NULL" ∨ k = "LIST" then get_base_oftype inner
    else .mk n k t (some inner)
  | .mk n k t none => .mk n k t none

/-- The output-side recursion's pending call: one descriptor
(`materialize_output` with its `include_name` flag), one object's field
list (`materialize_output_object_fields`), or the latter's loop over
remaining fields with the accumulated string. -/
inductive OutTask where
  | out (d : Desc) (includeName : Bool)
  | objFields (objectName : String)
  | goFields (fields : List Desc) (acc : String)

/-- Lines 31-95 of `regular_materializer.py`: `materialize_output` and
`materialize_output_object_fields` as one fuel-indexed function over
`OutTask`.  The `used` list is the Python `used_objects` list, which is
mutated in place (appended, never popped) and therefore threads through
sibling calls; it is passed and returned here.  Braces are written with
their character codes (`\x7b` = opening brace, `\x7d` = closing brace). -/
def materialize_out (objects : List (String × List Desc)) :
    Nat → OutTask → List String → Except PyErr (String × List String)
  | 0, _, _ => .error .recursionError
  | f + 1, .out d includeName, used =>
    if d.kind = "OBJECT" then
      match materialize_out objects f (.objFields d.type) used with
      | .ok (fieldsStr, u2) =>
        if fieldsStr ≠ "" then
          .ok ((if includeName then d.name else "") ++ " \x7b" ++ fieldsStr ++ "\x7d,", u2)
        else .ok ("", u2)
      | .error e => .error e
    else if d.kind = "NON_NULL" ∨ d.kind = "LIST" then
      match d.ofType with
      | some inner =>
        let base := get_base_oftype inner
        if base.kind = "SCALAR" then .ok (d.name ++ ", ", used)
        else
          match materialize_out objects f (.out base false) used with
          | .ok (s, u2) =>
            if s ≠ "" then
              .ok ((if includeName then d.name ++ s ++ ", " else s), u2)
            else .ok ("", u2)
          | .error e => .error e
      | none => .error .typeError
    else
      .ok ((if includeName then d.name ++ ", " else ""), used)
  | f + 1, .objFields objectName, used =>
    if MAX_OBJECT_CYCLES ≤ used.count objectName then .ok ("", used)
    else
      match alookup objectName objects with
      | some fields => materialize_out objects f (.goFields fields "") (used ++ [objectName])
      | none => .error .keyError
  | f + 1, .goFields fields acc, used =>
    match fields with
    | [] => .ok (acc, used)
    | field :: rest =>
      match materialize_out objects f (.out field true) used with
      | .ok (s, u2) =>
        materialize_out objects f
          (.goFields rest (if s ≠ "" ∧ s ≠ "\x7b\x7d" then acc ++ s else acc)) u2
      | .error e => .error e

/-- `RegularMaterializer.materialize_output` (line 31). -/
def materialize_output (objects : List (String × List Desc)) (fuel : Nat) (d : Desc)
    (used : List String) (includeName : Bool) : Except PyErr (String × List String) :=
  materialize_out objects fuel (.out d includeName) used

/-- `RegularMaterializer.materialize_output_object_fields` (line 71). -/
def materialize_output_object_fields (objects : List (String × List Desc)) (fuel : Nat)
    (objectName : String) (used : List String) : Except PyErr (String × List String) :=
  materialize_out objects fuel (.objFields objectName) used

/-! ## `get_payload`
(`regular_mutation_materializer.py` line 19, `regular_query_materializer.py`
line 20).  Python raises `TypeError` when a call supplies a keyword
argument the callee's signature does not accept; the signatures' parameter
names are recorded verbatim from the source. -/

/-- Parameters of `RegularMaterializer.materialize_inputs` (line 97),
`self` aside. -/
def materialize_inputs_params : List String := ["operator_info", "inputs", "objects_bucket"]

/-- Parameters of `RegularMaterializer.materialize_output` (line 31),
`self` aside. -/
def materialize_output_params : List String := ["output", "used_objects", "include_name", "skip_keys"]

/-- CPython call semantics: every keyword argument must name a parameter. -/
def py_kwargs_accepted (params kwargs : List String) : Bool :=
  kwargs.all (fun k => params.contains k)

/-- Modelled from the spec: `materializers/utils.prettify_graphql_payload`
is not in the sources; §4.2 says assembly "must leave the result
syntactically valid GraphQL after whitespace normalization", so it is a
whitespace normalizer, modelled as the identity on the payload text. -/
def prettify_graphql_payload (s : String) : String := s

/-- `RegularMutationMaterializer.get_payload` (lines 19-45): resets
`used_objects`, then calls `materialize_inputs(..., max_depth=MAX_INPUT_DEPTH)`
and `materialize_output(..., max_depth=MAX_OUTPUT_SELECTOR_DEPTH)` (lines
33-34).  Neither callee accepts a `max_depth` keyword, so the first of
those calls raises `TypeError` before any materialization runs. -/
def mutation_get_payload (rnd : Rand) (objects : List (String × List Desc))
    (mutations : List (String × OperatorInfo))
    (input_objects : List (String × List (String × Desc))) (fuel : Nat)
    (mutation_name : String) (bucket : Bucket) : Except PyErr (String × Used) :=
  match alookup mutation_name mutations with
  | none => .error .keyError
  | some info =>
    if py_kwargs_accepted materialize_inputs_params ["max_depth"] then
      match materialize_in rnd input_objects info bucket fuel (.inputs info.inputs) [] with
      | .ok (ins, used) =>
        if py_kwargs_accepted materialize_output_params ["max_depth"] then
          match materialize_out objects fuel (.out info.output false) [] with
          | .ok (outs, _) =>
            .ok (prettify_graphql_payload
              ("mutation \x7b " ++ mutation_name ++ " ( " ++ ins ++ " ) " ++ outs ++ " \x7d"),
              used)
          | .error e => .error e
        else .error .typeError
      | .error e => .error e
    else .error .typeError

/-- `RegularQueryMaterializer.get_payload` (lines 20-46): no stray keyword
arguments here; inputs are wrapped in parentheses only when non-empty. -/
def query_get_payload (rnd : Rand) (objects : List (String × List Desc))
    (queries : List (String × OperatorInfo))
    (input_objects : List (String × List (String × Desc))) (fuel : Nat)
    (query_name : String) (bucket : Bucket) : Except PyErr (String × Used) :=
  match alookup query_name queries with
  | none => .error .keyError
  | some info =>
    match materialize_in rnd input_objects info bucket fuel (.inputs info.inputs) [] with
    | .ok (ins, used) =>
      match materialize_out objects fuel (.out info.output false) [] with
      | .ok (outs, _) =>
        let ins2 := if ins ≠ "" then "(" ++ ins ++ ")" else ins
        .ok (prettify_graphql_payload
          ("query \x7b " ++ query_name ++ " " ++ ins2 ++ " " ++ outs ++ " \x7d"), used)
      | .error e => .error e
    | .error e => .error e

/-! ## Responses and the objects-bucket helpers -/

/-- A JSON value inside a GraphQL response's `data` section, as far as the
engine inspects one: null, a scalar (identifiers serialize as strings), or
a composite object. -/
inductive GqlValue where
  | null
  | str (s : String)
  | obj (fields : List (String × GqlValue))

/-- One server error object: `{message, locations:[{line, column}]}`. -/
structure GqlError where
  message : String
  locations : List (Nat × Nat)

/-- A parsed GraphQL response dict.  `errors`/`data` are `none` when the
key is absent; `data`'s inner `Option` distinguishes a null `data` value
from a mapping of operation name to result. -/
structure GqlResp where
  errors : Option (List GqlError)
  data : Option (Option (List (String × GqlValue)))

/-- Modelled from the spec: `fuzzer/utils.put_in_object_bucket` is not in
the sources; per §3 the bucket maps an object type name to the set of
identifiers believed live, so insertion adds the identifier to the type's
set. -/
def put_in_object_bucket (bucket : Bucket) (typeName ident : String) : Bucket :=
  match alookup typeName bucket with
  | some vs => if ident ∈ vs then bucket else aupsert typeName (vs ++ [ident]) bucket
  | none => bucket ++ [(typeName, [ident])]

/-- Modelled from the spec: `fuzzer/utils.remove_from_object_bucket` is not
in the sources; per §3/§4.4 DELETE removes the consumed identifier from the
type's set of live identifiers (an emptied set keeps no entry). -/
def remove_from_object_bucket (bucket : Bucket) (typeName ident : String) : Bucket :=
  match alookup typeName bucket with
  | some vs =>
    let vs2 := vs.filter (fun v => v ≠ ident)
    if vs2 = [] then aremove typeName bucket else aupsert typeName vs2 bucket
  | none => bucket

/-- Modelled from the spec: `utils/parser_utils.get_output_type` is not in
the sources; per §4.1 an operation is linked to an object type "via output
type matching", i.e. the named base type of its output descriptor. -/
def get_output_type (name : String) (ops : List (String × OperatorInfo)) :
    Except PyErr String :=
  match alookup name ops with
  | some op => .ok (get_base_oftype op.output).type
  | none => .error .keyError

/-- Modelled from the spec: `fuzzer/fengine/utils.check_is_data_empty` is
not in the sources; per §4.4 step 5 a "data payload for the operation
[that] is entirely empty" is a failure, so every operation's value must be
empty (null, empty string or empty composite) for the check to hold. -/
def gql_value_is_empty : GqlValue → Bool
  | .null => true
  | .str s => s = ""
  | .obj fields => fields.isEmpty

def check_is_data_empty (d : List (String × GqlValue)) : Bool :=
  d.all (fun p => gql_value_is_empty p.2)

/-! ## Retrier (`fuzzer/fengine/retrier/retrier.py`)

`send_graphql_request` returns the pair `(parsedResponse, rawStatus)` (§6;
`fengine.py` destructures it).  `retrier.py` line 39 binds that whole pair
to `response`, so from the second round on the "response" is a tuple, not
a dict; the working value is therefore a sum of the two shapes. -/

/-- What the transport hands back: the parsed response (or None) and the
raw status code. -/
abbrev SendResult := Option GqlResp × Nat

/-- `Retrier.max_retries` (line 18). -/
def Retrier_max_retries : Nat := 3

/-- The error message fragment line 33 looks for. -/
def NON_NULL_PHRASE : String := "Cannot return null for non-nullable field"

/-- CPython semantics of `"errors" in response` when `response` is the
`(parsedResponse, rawStatus)` tuple (line 40 after line 39's rebinding):
tuple membership compares `"errors"` with `==` against each element, and
neither a dict/None nor an int ever equals a `str`, so the test is always
`False`. -/
def py_errors_in_send_tuple (_pair : SendResult) : Bool := false

/-- Modelled from the spec: `retrier/utils.find_block_end` is not in the
sources; per §4.3 it locates the end of the smallest enclosing selection
block (matching brace pair) that starts at or after the given line.  Lines
are scanned from `start`, tracking brace depth; the first line at which the
depth, having opened, returns to zero is the block end. -/
def find_block_end_go (lines : List String) (depth : Nat) (opened : Bool) (idx : Nat) : Nat :=
  match lines with
  | [] => idx
  | line :: rest =>
    let opens := line.data.count '\x7b'
    let closes := line.data.count '\x7d'
    let depth2 := depth + opens - closes
    if (opened ∨ opens > 0) ∧ depth2 = 0 then idx
    else find_block_end_go rest depth2 (opened ∨ opens > 0) (idx + 1)

def find_block_end (payload : String) (start : Nat) : Nat :=
  let lines := payload.splitOn "\n"
  find_block_end_go (lines.drop start) 0 false start

/-- Modelled from the spec: `retrier/utils.remove_lines_within_range` is
not in the sources; per §4.3 the repair deletes "the full span of lines
covering that block from the payload text". -/
def remove_lines_within_range (payload : String) (a b : Nat) : String :=
  let lines := payload.splitOn "\n"
  String.intercalate "\n" (lines.take a ++ lines.drop (b + 1))

/-- `Retrier.get_new_payload_for_retry_non_null` (lines 49-62). -/
def get_new_payload_for_retry_non_null (payload : String) (location : Nat × Nat) : String :=
  let lineNumber := location.1
  let blockEnd := find_block_end payload (lineNumber - 1)
  remove_lines_within_range payload (lineNumber - 1) blockEnd

/-- `Retrier.retry` (lines 20-47), fuel-indexed like the materializers.
Line 44's guard bounds the recursion depth by `max_retries + 1` frames, so
any fuel beyond `Retrier_max_retries + 2` cannot change the result.
`response` starts as the parsed dict (`Sum.inl`); line 39 rebinds it to the
transport's `(response, status)` tuple (`Sum.inr`), on which line 40's
`"errors" in response` is always `False`, so the recursion and the retry
ceiling are in fact unreachable — a second round would in any case hit
`response["errors"]` on a tuple, a `TypeError`. -/
def Retrier_retry (send : String → SendResult) :
    Nat → String → Sum GqlResp SendResult → Nat →
    Except PyErr (Sum GqlResp SendResult × Bool)
  | 0, _, _, _ => .error .recursionError
  | f + 1, payload, response, retryCount =>
    match response with
    | .inr _ => .error .typeError
    | .inl resp =>
      match resp.errors with
      | none => .error .keyError
      | some [] => .error .indexError
      | some (e :: _) =>
        if NON_NULL_PHRASE.data <:+: e.message.data then
          let payload2 := e.locations.foldl get_new_payload_for_retry_non_null payload
          let pair := send payload2
          if py_errors_in_send_tuple pair then
            if retryCount < Retrier_max_retries then
              Retrier_retry send f payload2 (.inr pair) (retryCount + 1)
            else .ok (.inr pair, false)
          else .ok (.inr pair, true)
        else .ok (.inl resp, false)

/-! ## FEngine (`fuzzer/fengine/fengine.py`) -/

/-- `RegularMaterializer.__init__` (line 14) requires 5 positional
arguments besides `self`: objects, operator_info, input_objects, enums,
logger. -/
def regular_materializer_init_params : Nat := 5

/-- `RegularMutationMaterializer.__init__` (line 12) takes 4 arguments
besides `self` and passes 4 on to `super().__init__` (line 13). -/
def mutation_materializer_init_params : Nat := 4

def mutation_materializer_super_args : Nat := 4

/-- `FEngine.run_regular_mutation` line 69 constructs the mutation
materializer with 4 arguments. -/
def fengine_mutation_materializer_args : Nat := 4

/-- `RegularQueryMaterializer.__init__` (line 11) requires 5 positional
arguments besides `self`; `FEngine.run_regular_query` line 152 passes 4. -/
def query_materializer_init_params : Nat := 5

def fengine_query_materializer_args : Nat := 4

/-- Constructing `RegularMutationMaterializer(objects, mutations,
input_objects, enums)`: the subclass `__init__` accepts the call, then
`super().__init__` is short one positional argument (`logger`), a
`TypeError`. -/
def mk_regular_mutation_materializer : Except PyErr Unit :=
  if fengine_mutation_materializer_args < mutation_materializer_init_params then
    .error .typeError
  else if mutation_materializer_super_args < regular_materializer_init_params then
    .error .typeError
  else .ok ()

/-- Constructing `RegularQueryMaterializer(objects, queries, input_objects,
enums)`: the constructor itself is short one positional argument
(`logger`), a `TypeError`. -/
def mk_regular_query_materializer : Except PyErr Unit :=
  if fengine_query_materializer_args < query_materializer_init_params then
    .error .typeError
  else .ok ()

/-- Python truthiness of the parsed response (`if not graphql_response:`,
line 82/165): `None` and the empty dict are falsy. -/
def gql_response_falsy : Option GqlResp → Bool
  | none => true
  | some r => r.errors.isNone ∧ r.data.isNone

/-- Key lookup `"data" in x` when `x` is either the parsed dict or, after
a retry, the `(response, status)` tuple the Retrier hands back: a tuple
has no keys (membership compares its elements with `==`, never `True`
here). -/
def sum_resp_data : Sum GqlResp SendResult → Option (Option (List (String × GqlValue)))
  | .inl r => r.data
  | .inr _ => none

/-- Lines 107-127 of `fengine.py`: interpret the mutation's returned value
against the bucket.  Only a composite (`dict`) value carrying an `id` key
touches the bucket; the behavior then splits on `mutationType`.
Identifiers are modelled as strings (GraphQL IDs serialize as strings); a
composite value under the `id` key is no identifier and is not given a
bucket rendering here. -/
def interpret_mutation_data (mutations : List (String × OperatorInfo))
    (mutation_name : String) (used : Used) (bucket : Bucket) (v : GqlValue) :
    Except PyErr Bucket :=
  match v with
  | .obj fields =>
    match get_output_type mutation_name mutations with
    | .error e => .error e
    | .ok outType =>
      match alookup "id" fields with
      | some idv =>
        match alookup mutation_name mutations with
        | none => .error .keyError
        | some info =>
          if info.mutationType = "CREATE" then
            match idv with
            | .null => .ok bucket
            | .str s => .ok (put_in_object_bucket bucket outType s)
            | .obj _ => .ok bucket
          else if info.mutationType = "UPDATE" then .ok bucket
          else if info.mutationType = "DELETE" then
            match alookup outType used with
            | some usedVal => .ok (remove_from_object_bucket bucket outType usedVal)
            | none => .ok bucket
          else .ok bucket
      | none => .ok bucket
  | _ => .ok bucket

/-- Lines 189-196 of `fengine.py`: interpret the query's returned value;
a composite carrying a non-null `id` is inserted like CREATE does. -/
def interpret_query_data (queries : List (String × OperatorInfo))
    (query_name : String) (bucket : Bucket) (v : GqlValue) : Except PyErr Bucket :=
  match v with
  | .obj fields =>
    match get_output_type query_name queries with
    | .error e => .error e
    | .ok outType =>
      match alookup "id" fields with
      | some idv =>
        match idv with
        | .null => .ok bucket
        | .str s => .ok (put_in_object_bucket bucket outType s)
        | .obj _ => .ok bucket
      | none => .ok bucket
  | _ => .ok bucket

/-- The shared tail of both run methods after the payload was sent: falsy
check, `errors` → Retrier, `data` checks, then interpretation.  `interp`
is the operation-kind-specific bucket interpretation. -/
def handle_response (send : String → SendResult) (payload : String) (name : String)
    (bucket : Bucket) (sent : SendResult)
    (interp : Bucket → GqlValue → Except PyErr Bucket) :
    Except PyErr (Bucket × Bool) :=
  let graphql_response := sent.1
  if gql_response_falsy graphql_response then .ok (bucket, false)
  else
    match graphql_response with
    | none => .ok (bucket, false)
    | some resp =>
      match
        (match resp.errors with
         | some _ => Retrier_retry send (Retrier_max_retries + 2) payload (.inl resp) 0
         | none => .ok (.inl resp, true)) with
      | .error e => .error e
      | .ok (v, retrySuccess) =>
        if retrySuccess = false then .ok (bucket, false)
        else
          match sum_resp_data v with
          | none => .ok (bucket, false)
          | some none => .error .typeError
          | some (some dmap) =>
            match alookup name dmap with
            | none => .error .keyError
            | some value =>
              match value with
              | .null => .ok (bucket, NO_DATA_COUNT_AS_SUCCESS)
              | _ =>
                if check_is_data_empty dmap then .ok (bucket, false)
                else
                  match interp bucket value with
                  | .error e => .error e
                  | .ok bucket2 => .ok (bucket2, true)

/-- The `try` block of `FEngine.run_regular_mutation` (lines 65-127). -/
def run_regular_mutation_try (rnd : Rand) (send : String → SendResult)
    (objects : List (String × List Desc)) (mutations : List (String × OperatorInfo))
    (input_objects : List (String × List (String × Desc))) (fuel : Nat)
    (mutation_name : String) (bucket : Bucket) : Except PyErr (Bucket × Bool) :=
  match mk_regular_mutation_materializer with
  | .error e => .error e
  | .ok _ =>
    match mutation_get_payload rnd objects mutations input_objects fuel mutation_name bucket with
    | .error e => .error e
    | .ok (payload, used) =>
      handle_response send payload mutation_name bucket (send payload)
        (interpret_mutation_data mutations mutation_name used)

/-- `FEngine.run_regular_mutation` (lines 47-136): the `except` clauses
turn `HardDependencyNotMetException` and every other `Exception` into
`(objects_bucket, False)`; only `bdb.BdbQuit` — the debugger's external
abort, which no embedded operation raises — is re-raised. -/
def run_regular_mutation (rnd : Rand) (send : String → SendResult)
    (objects : List (String × List Desc)) (mutations : List (String × OperatorInfo))
    (input_objects : List (String × List (String × Desc))) (fuel : Nat)
    (mutation_name : String) (bucket : Bucket) : Bucket × Bool :=
  match run_regular_mutation_try rnd send objects mutations input_objects fuel
      mutation_name bucket with
  | .ok r => r
  | .error _ => (bucket, false)

/-- The `try` block of `FEngine.run_regular_query` (lines 148-198). -/
def run_regular_query_try (rnd : Rand) (send : String → SendResult)
    (objects : List (String × List Desc)) (queries : List (String × OperatorInfo))
    (input_objects : List (String × List (String × Desc))) (fuel : Nat)
    (query_name : String) (bucket : Bucket) : Except PyErr (Bucket × Bool) :=
  match mk_regular_query_materializer with
  | .error e => .error e
  | .ok _ =>
    match query_get_payload rnd objects queries input_objects fuel query_name bucket with
    | .error e => .error e
    | .ok (payload, _used) =>
      handle_response send payload query_name bucket (send payload)
        (interpret_query_data queries query_name)

/-- `FEngine.run_regular_query` (lines 138-203), with the same exception
boundary as the mutation runner. -/
def run_regular_query (rnd : Rand) (send : String → SendResult)
    (objects : List (String × List Desc)) (queries : List (String × OperatorInfo))
    (input_objects : List (String × List (String × Desc))) (fuel : Nat)
    (query_name : String) (bucket : Bucket) : Bucket × Bool :=
  match run_regular_query_try rnd send objects queries input_objects fuel
      query_name bucket with
  | .ok r => r
  | .error _ => (bucket, false)

/-! ## Concrete fixtures used in witnesses and counterexample runs -/

/-- A concrete randomness oracle: first element, constant scalar. -/
def rnd0 : Rand := ⟨fun l => l.headD "", fun _ _ => "0"⟩

/-- A scalar input parameter named `u`. -/
def descU : Desc := Desc.mk "u" "SCALAR" "ID" none

/-- An operation whose input `u` hard-depends on the object type `User`. -/
def opHardUser : OperatorInfo :=
  ⟨[("u", descU)], Desc.mk "user" "OBJECT" "User" none, [("u", "User")], [], "DELETE"⟩

/-- An operation whose input `u` hard-depends on the sentinel `UNKNOWN`. -/
def opHardUnknown : OperatorInfo :=
  ⟨[("u", descU)], Desc.mk "user" "OBJECT" "User" none, [("u", "UNKNOWN")], [], "UNKNOWN"⟩

/-- An operation whose input `u` soft-depends on the object type `User`. -/
def opSoftUser : OperatorInfo :=
  ⟨[("u", descU)], Desc.mk "user" "OBJECT" "User" none, [], [("u", "User")], "UNKNOWN"⟩

/-- The field `id: ID!` — a NON_NULL wrapper around the built-in scalar ID. -/
def fieldIdNonNull : Desc := Desc.mk "id" "NON_NULL" "ID" (some (Desc.mk "ID" "SCALAR" "ID" none))

/-- A self-referential input object: input `A` has a field `self` of input
object type `A` again. -/
def selfField : Desc := Desc.mk "self" "INPUT_OBJECT" "A" none

def iobjsA : List (String × List (String × Desc)) := [("A", [("self", selfField)])]

/-- An operation taking the self-referential input, with no recorded
dependencies. -/
def opA : OperatorInfo :=
  ⟨[("self", selfField)], Desc.mk "a" "OBJECT" "A" none, [], [], "UNKNOWN"⟩

/-- `deleteUser(...): User`, with `id` consumed from the bucket. -/
def opDeleteUser : OperatorInfo :=
  ⟨[("id", Desc.mk "id" "SCALAR" "ID" none)], Desc.mk "user" "OBJECT" "User" none,
    [("id", "User")], [], "DELETE"⟩

/-- `createUser(...): User`. -/
def opCreateUser : OperatorInfo :=
  ⟨[("name", Desc.mk "name" "SCALAR" "String" none)], Desc.mk "user" "OBJECT" "User" none,
    [], [], "CREATE"⟩

/-- `updateUser(...): User`. -/
def opUpdateUser : OperatorInfo :=
  ⟨[("id", Desc.mk "id" "SCALAR" "ID" none)], Desc.mk "user" "OBJECT" "User" none,
    [("id", "User")], [], "UPDATE"⟩

/-- `getUser(...): User` (a query). -/
def opGetUser : OperatorInfo :=
  ⟨[], Desc.mk "user" "OBJECT" "User" none, [], [], ""⟩

/-- A server error whose message carries the non-nullable-field-null
phrase, located at line 4 column 5 (spec §8, scenario 3). -/
def badError : GqlError :=
  ⟨"Cannot return null for non-nullable field Transaction.payer.", [(4, 5)]⟩

/-- A response carrying only that error. -/
def badResp : GqlResp := ⟨some [badError], none⟩

/-- A server error with an unrelated message shape. -/
def otherResp : GqlResp := ⟨some [⟨"Service unavailable", []⟩], none⟩

/-- A transport that keeps answering with the same erroring response. -/
def sendAlwaysErrors : String → SendResult := fun _ => (some badResp, 200)

/-- A small payload a retry would patch. -/
def payload0 : String :=
  "query \x7b\n transaction \x7b\n id,\n payer \x7b\n id,\n \x7d,\n \x7d\n\x7d"

/-- The field `friend: A!` of the self-referential object `A`. -/
def fieldFriend : Desc := Desc.mk "friend" "NON_NULL" "A" (some (Desc.mk "A" "OBJECT" "A" none))

/-- A schema with the single self-referential object
`A { id: ID!, friend: A! }` (spec §8). -/
def objectsSelf : List (String × List Desc) := [("A", [fieldIdNonNull, fieldFriend])]

/-- An output descriptor of object type `A`. -/
def topA : Desc := Desc.mk "a" "OBJECT" "A" none

/-! ## Selection-string well-formedness (for the no-empty-selection-set
property) -/

def lbChar : Char := '\x7b'

def rbChar : Char := '\x7d'

/-- A schema name that does not itself contain brace characters (GraphQL
names match `[_A-Za-z][_0-9A-Za-z]*`). -/
def brace_free (s : String) : Prop := lbChar ∉ s.data ∧ rbChar ∉ s.data

/-- The invariant every selection fragment the output materializer builds
satisfies: no empty brace pair `\x7b\x7d` occurs, the fragment does not
start with a closing brace and does not end with an opening brace. -/
def chars_ok (l : List Char) : Prop :=
  ¬ [lbChar, rbChar] <:+: l ∧ l.head? ≠ some rbChar ∧ l.getLast? ≠ some lbChar

/-- The string contains no empty selection set `\x7b\x7d`. -/
def no_empty_braces (s : String) : Prop := ¬ [lbChar, rbChar] <:+: s.data

/-- Whether a descriptor is selected as a leaf (scalar-style) selection:
an unwrapped non-object kind (line 68 of `regular_materializer.py`), or a
NON_NULL/LIST wrapper whose base type is a scalar (line 58). -/
def is_leaf_sel (d : Desc) : Bool :=
  if d.kind = "OBJECT" then false
  else if d.kind = "NON_NULL" ∨ d.kind = "LIST" then
    match d.ofType with
    | some inner => (get_base_oftype inner).kind = "SCALAR"
    | none => false
  else true

/-- All names of leaf-selected fields across the schema's objects. -/
def leaf_field_names (objects : List (String × List Desc)) : List String :=
  objects.foldr (fun p acc => (p.2.filter (fun f => is_leaf_sel f)).map Desc.name ++ acc) []

/-- Every field name of every object is brace-free. -/
def objects_names_ok (objects : List (String × List Desc)) : Prop :=
  ∀ p ∈ objects, ∀ f ∈ p.2, brace_free f.name

/-- The fragment contains at least one leaf (scalar) selection: some
candidate leaf name followed by the materializer's `", "` separator. -/
def has_leaf_sel (cands : List String) (l : List Char) : Prop :=
  ∃ n ∈ cands, (n ++ ", ").data <:+: l

/-! ## Theorems -/

theorem mo_succ_out (objects : List (String × List Desc)) (f : Nat) (d : Desc)
    (includeName : Bool) (used : List String) :
    materialize_out objects (f + 1) (.out d includeName) used
      = (if d.kind = "OBJECT" then
           match materialize_out objects f (.objFields d.type) used with
           | .ok (fieldsStr, u2) =>
             if fieldsStr ≠ "" then
               .ok ((if includeName then d.name else "") ++ " \x7b" ++ fieldsStr ++ "\x7d,", u2)
             else .ok ("", u2)
           | .error e => .error e
         else if d.kind = "NON_NULL" ∨ d.kind = "LIST" then
           match d.ofType with
           | some inner =>
             if (get_base_oftype inner).kind = "SCALAR" then .ok (d.name ++ ", ", used)
             else
               match materialize_out objects f (.out (get_base_oftype inner) false) used with
               | .ok (s, u2) =>
                 if s ≠ "" then
                   .ok ((if includeName then d.name ++ s ++ ", " else s), u2)
                 else .ok ("", u2)
               | .error e => .error e
           | none => .error .typeError
         else .ok ((if includeName then d.name ++ ", " else ""), used)) := rfl

theorem mo_succ_objFields (objects : List (String × List Desc)) (f : Nat)
    (objectName : String) (used : List String) :
    materialize_out objects (f + 1) (.objFields objectName) used
      = (if MAX_OBJECT_CYCLES ≤ used.count objectName then .ok ("", used)
         else
           match alookup objectName objects with
           | some fields => materialize_out objects f (.goFields fields "") (used ++ [objectName])
           | none => .error .keyError) := rfl

theorem mo_succ_goFields (objects : List (String × List Desc)) (f : Nat)
    (fields : List Desc) (acc : String) (used : List String) :
    materialize_out objects (f + 1) (.goFields fields acc) used
      = (match fields with
         | [] => .ok (acc, used)
         | field :: rest =>
           match materialize_out objects f (.out field true) used with
           | .ok (s, u2) =>
             materialize_out objects f
               (.goFields rest (if s ≠ "" ∧ s ≠ "\x7b\x7d" then acc ++ s else acc)) u2
           | .error e => .error e) := rfl

/-- Fuel monotonicity of the output materializer: a completed run is
stable under extra fuel. -/
theorem materialize_out_mono (objects : List (String × List Desc)) :
    ∀ fuel t used r, materialize_out objects fuel t used = .ok r →
      materialize_out objects (fuel + 1) t used = .ok r := by
  intro fuel
  induction fuel with
  | zero =>
    intro t used r h
    simp [materialize_out] at h
  | succ f ih =>
    intro t used r h
    cases t with
    | out d includeName =>
      rw [mo_succ_out] at h ⊢
      by_cases hk : d.kind = "OBJECT"
      · rw [if_pos hk] at h ⊢
        cases heq : materialize_out objects f (.objFields d.type) used with
        | error e => rw [heq] at h; exact absurd h (by simp)
        | ok p =>
          obtain ⟨fs, u2⟩ := p
          rw [heq] at h
          rw [ih _ _ _ heq]
          exact h
      · rw [if_neg hk] at h ⊢
        by_cases hnn : d.kind = "NON_NULL" ∨ d.kind = "LIST"
        · rw [if_pos hnn] at h ⊢
          cases ho : d.ofType with
          | none => rw [ho] at h; exact absurd h (by simp)
          | some inner =>
            rw [ho] at h
            dsimp only at h ⊢
            by_cases hb : (get_base_oftype inner).kind = "SCALAR"
            · rw [if_pos hb] at h ⊢; exact h
            · rw [if_neg hb] at h ⊢
              cases heq : materialize_out objects f (.out (get_base_oftype inner) false) used with
              | error e => rw [heq] at h; exact absurd h (by simp)
              | ok p =>
                obtain ⟨s, u2⟩ := p
                rw [heq] at h
                rw [ih _ _ _ heq]
                exact h
        · rw [if_neg hnn] at h ⊢; exact h
    | objFields objectName =>
      rw [mo_succ_objFields] at h ⊢
      by_cases hg : MAX_OBJECT_CYCLES ≤ used.count objectName
      · rw [if_pos hg] at h ⊢; exact h
      · rw [if_neg hg] at h ⊢
        cases hlk : alookup objectName objects with
        | none => rw [hlk] at h; exact absurd h (by simp)
        | some fields =>
          rw [hlk] at h
          dsimp only at h ⊢
          exact ih _ _ _ h
    | goFields fields acc =>
      rw [mo_succ_goFields] at h ⊢
      cases fields with
      | nil => exact h
      | cons field rest =>
        dsimp only at h ⊢
        cases heq : materialize_out objects f (.out field true) used with
        | error e => rw [heq] at h; exact absurd h (by simp)
        | ok p =>
          obtain ⟨s, u2⟩ := p
          rw [heq] at h
          rw [ih _ _ _ heq]
          dsimp only at h ⊢
          exact ih _ _ _ h

theorem materialize_out_mono_le (objects : List (String × List Desc))
    {fuel fuel2 : Nat} (hle : fuel ≤ fuel2) {t : OutTask} {used : List String}
    {r : String × List String} (h : materialize_out objects fuel t used = .ok r) :
    materialize_out objects fuel2 t used = .ok r := by
  induction fuel2 with
  | zero =>
    have : fuel = 0 := Nat.le_zero.mp hle
    subst this; exact h
  | succ g ihg =>
    rcases Nat.lt_or_ge fuel (g + 1) with hlt | hge
    · exact materialize_out_mono objects g t used r (ihg (Nat.lt_succ_iff.mp hlt))
    · have : fuel = g + 1 := Nat.le_antisymm hle hge
      subst this; exact h

/-- Claim C5: the per-object-type revisit counter.  First part: once an
object type already has at least `MAX_OBJECT_CYCLES` (= 2) appearances in
the `used_objects` list — which includes every appearance on the current
selection path — `materialize_output_object_fields` stops immediately,
returning the empty selection and leaving the visit list unchanged, so
that type contributes nothing further.  Second part: on the
self-referential schema `A { id: ID!, friend: A! }` output materialization
terminates with the same two-level unrolling for every fuel from 30 up —
its visit list records exactly `MAX_OBJECT_CYCLES` descents into `A` —
regardless of how much recursion depth is otherwise allowed. -/
theorem c5_output_cycle_bound :
    (∀ (objects : List (String × List Desc)) (fuel : Nat) (name : String)
      (used : List String),
      MAX_OBJECT_CYCLES ≤ used.count name →
      materialize_output_object_fields objects (fuel + 1) name used = .ok ("", used))
    ∧ (∀ fuel, 30 ≤ fuel →
      materialize_output objectsSelf fuel topA [] false
        = .ok (" \x7bid, friend \x7bid, \x7d,, \x7d,", ["A", "A"])) := by
  constructor
  · intro objects fuel name used h
    show materialize_out objects (fuel + 1) (.objFields name) used = .ok ("", used)
    rw [mo_succ_objFields, if_pos h]
  · intro fuel hf
    have h30 : materialize_out objectsSelf 30 (.out topA false) []
        = .ok (" \x7bid, friend \x7bid, \x7d,, \x7d,", ["A", "A"]) := rfl
    exact materialize_out_mono_le objectsSelf hf h30

theorem c5_output_cycle_bound_witness :
    (materialize_output_object_fields objectsSelf 1 "A" ["A", "A"] = .ok ("", ["A", "A"]))
    ∧ (materialize_output objectsSelf 30 topA [] false
      = .ok (" \x7bid, friend \x7bid, \x7d,, \x7d,", ["A", "A"])) :=
  ⟨c5_output_cycle_bound.1 objectsSelf 0 "A" ["A", "A"] (by decide),
   c5_output_cycle_bound.2 30 (by decide)⟩

theorem alookup_unknown_of_wf {bucket : Bucket} (h : BucketWF bucket) :
    alookup "UNKNOWN" bucket = none := by
  induction bucket with
  | nil => rfl
  | cons p rest ih =>
    have hp := h p (List.mem_cons_self p rest)
    have hrest : BucketWF rest := fun q hq => h q (List.mem_cons_of_mem p hq)
    simp only [alookup]
    rw [if_neg hp.1]
    exact ih hrest

/-- Claim C1: an input field with a recorded hard dependency on a concrete
(non-UNKNOWN) object type that has no live identifier in the bucket makes
materialization fail with the distinguished `HardDependencyNotMetException`
(not a generic failure); the bucket, a read-only argument of the embedded
materializer, is untouched, and no partial `used_objects` state escapes.
When the recorded hard dependency is the sentinel `UNKNOWN`, the call
falls back to the dependency-free (`check_deps = False`) literal
generation.  The bucket well-formedness hypothesis is the data model's:
bucket keys are object type names (never the sentinel) and each entry
holds at least one live identifier. -/
theorem c1_hard_dependency_not_met (rnd : Rand)
    (input_objects : List (String × List (String × Desc))) (op : OperatorInfo)
    (bucket : Bucket) (fuel : Nat) (d : Desc) (used : Used) (hd : String)
    (hwf : BucketWF bucket)
    (hdep : alookup d.name op.hardDependsOn = some hd) :
    (hd ≠ "UNKNOWN" → alookup hd bucket = none →
      materialize_input_field rnd input_objects op bucket (fuel + 1) d true used
        = .error (.hardDependencyNotMet hd))
    ∧ (hd = "UNKNOWN" →
      materialize_input_field rnd input_objects op bucket (fuel + 1) d true used
        = materialize_input_field rnd input_objects op bucket fuel d false used) := by
  constructor
  · intro hne hnone
    simp [materialize_input_field, materialize_in, hdep, hnone, hne]
  · intro hu
    subst hu
    have hnone : alookup "UNKNOWN" bucket = none := alookup_unknown_of_wf hwf
    simp [materialize_input_field, materialize_in, hdep, hnone]

theorem c1_hard_dependency_not_met_witness :
    (materialize_input_field rnd0 [] opHardUser [] 1 descU true []
      = .error (.hardDependencyNotMet "User"))
    ∧ (materialize_input_field rnd0 [] opHardUnknown [("User", ["u1"])] 1 descU true []
      = materialize_input_field rnd0 [] opHardUnknown [("User", ["u1"])] 0 descU false []) :=
  ⟨(c1_hard_dependency_not_met rnd0 [] opHardUser [] 0 descU [] "User"
      (by intro p hp; cases hp) rfl).1 (by decide) rfl,
   (c1_hard_dependency_not_met rnd0 [] opHardUnknown [("User", ["u1"])] 0 descU [] "UNKNOWN"
      (by intro p hp; rw [List.mem_singleton] at hp; subst hp; exact ⟨by decide, by decide⟩)
      rfl).2 rfl⟩

/-- Claim C4 (code bug): with only a soft dependency whose object type has
a value in the bucket, line 148 of `regular_materializer.py` evaluates
`objects_bucket[hard_dependency_name]`, but `hard_dependency_name` is only
assigned in the mutually exclusive hard-dependency branch (line 133), so
the bucket value is never used: the call raises `UnboundLocalError`
instead, and materialization aborts.  The spec's "prefer the bucket value
when present … soft dependencies never abort materialization" is the
evident intent; the variable name is a copy slip from the hard branch. -/
theorem c4_soft_dependency_bucket_hit_aborts :
    materialize_input_field rnd0 [] opSoftUser [("User", ["u1"])] 1 descU true []
      = .error .unboundLocalError := rfl

/-- Claim C6 (code bug): the resolver's NON_NULL and LIST branches compare
`field["ofType"]` — a nested descriptor dict — against the list of
built-in scalar *names* (lines 50-56 of `object_dependency_resolver.py`),
a membership test that is always false, so the intended built-in filter
never fires: the field `id: ID!` is recorded as a hard dependency (and its
entry is the ofType descriptor, not an object type name). -/
theorem c6_nonnull_builtin_becomes_hard_dependency :
    parse_gql_object [fieldIdNonNull]
      = ([], [DepEntry.descRef (some (Desc.mk "ID" "SCALAR" "ID" none))]) := rfl

/-- Claim C2: both run methods construct their materializer without the
`logger` argument the constructor chain requires (`fengine.py` lines 69
and 152 against `regular_query_materializer.py` line 11 and
`regular_materializer.py` line 14), a `TypeError` raised before any
request could be sent — the `try` body's outcome does not depend on the
transport at all — and the operation-boundary handler turns it into
`(objects_bucket, False)`. -/
theorem c2_runs_fail_before_sending (rnd : Rand) (send : String → SendResult)
    (objects : List (String × List Desc)) (mutations queries : List (String × OperatorInfo))
    (input_objects : List (String × List (String × Desc))) (fuel : Nat) (name : String)
    (bucket : Bucket) :
    (run_regular_mutation_try rnd send objects mutations input_objects fuel name bucket
      = .error .typeError)
    ∧ (run_regular_mutation rnd send objects mutations input_objects fuel name bucket
      = (bucket, false))
    ∧ (run_regular_query_try rnd send objects queries input_objects fuel name bucket
      = .error .typeError)
    ∧ (run_regular_query rnd send objects queries input_objects fuel name bucket
      = (bucket, false)) :=
  ⟨rfl, rfl, rfl, rfl⟩

/-- Claim C8: any exception the embedded `try` body raises while
materializing, sending or interpreting one operation is caught at the
operation boundary (`fengine.py` lines 128-136 and 199-203) and converted
into a failure outcome with the bucket returned unchanged; the run methods
are total functions into `Bucket × Bool`, so no embedded exception
propagates.  (`bdb.BdbQuit`, the re-raised debugger abort, is an external
abort request no embedded operation raises.) -/
theorem c8_operation_boundary_catches (rnd : Rand) (send : String → SendResult)
    (objects : List (String × List Desc)) (mutations queries : List (String × OperatorInfo))
    (input_objects : List (String × List (String × Desc))) (fuel : Nat) (name : String)
    (bucket : Bucket) :
    (∀ e : PyErr,
      run_regular_mutation_try rnd send objects mutations input_objects fuel name bucket
        = .error e →
      run_regular_mutation rnd send objects mutations input_objects fuel name bucket
        = (bucket, false))
    ∧ (∀ e : PyErr,
      run_regular_query_try rnd send objects queries input_objects fuel name bucket
        = .error e →
      run_regular_query rnd send objects queries input_objects fuel name bucket
        = (bucket, false)) := by
  constructor
  · intro e h
    simp [run_regular_mutation, h]
  · intro e h
    simp [run_regular_query, h]

/-- Unbounded input recursion on the self-referential input object `A`:
every component of the input-side recursion diverges (exhausts any fuel)
— there is no depth counter anywhere in `materialize_input_field`. -/
theorem self_input_recursion_diverges (bucket : Bucket) : ∀ fuel used,
    (materialize_in rnd0 iobjsA opA bucket fuel (.field selfField true) used
      = .error .recursionError)
    ∧ (materialize_in rnd0 iobjsA opA bucket fuel (.inputs [("self", selfField)]) used
      = .error .recursionError)
    ∧ (∀ acc, materialize_in rnd0 iobjsA opA bucket fuel (.goInputs [("self", selfField)] acc) used
      = .error .recursionError) := by
  intro fuel
  induction fuel with
  | zero => exact fun _ => ⟨rfl, rfl, fun _ => rfl⟩
  | succ f ih =>
    intro used
    refine ⟨?_, ?_, ?_⟩
    · have step : materialize_in rnd0 iobjsA opA bucket (f + 1) (.field selfField true) used
          = (match materialize_in rnd0 iobjsA opA bucket f (.inputs [("self", selfField)]) used with
             | .ok (s, u2) => .ok ("\x7b" ++ s ++ "\x7d", u2)
             | .error e => .error e) := rfl
      rw [step, (ih used).2.1]
    · have step : materialize_in rnd0 iobjsA opA bucket (f + 1)
            (.inputs [("self", selfField)]) used
          = materialize_in rnd0 iobjsA opA bucket f (.goInputs [("self", selfField)] "") used :=
        rfl
      rw [step]
      exact (ih used).2.2 ""
    · intro acc
      have step : materialize_in rnd0 iobjsA opA bucket (f + 1)
            (.goInputs [("self", selfField)] acc) used
          = (match materialize_in rnd0 iobjsA opA bucket f (.field selfField true) used with
             | .ok (s, u2) =>
               materialize_in rnd0 iobjsA opA bucket f
                 (.goInputs [] (acc ++ "self" ++ ": " ++ s ++ ",")) u2
             | .error e => .error e) := rfl
      rw [step, (ih used).1]

/-- Claim C10 (code bug): input materialization has no depth bound at all.
First part: on a self-referential input object definition the recursion of
`materialize_input_field` exhausts every fuel — nothing in lines 97-164 of
`regular_materializer.py` counts depth, so in Python the recursion is
unbounded (it would die with an uncontrolled `RecursionError`, not fail
closed).  Second part: the only place `MAX_INPUT_DEPTH` is mentioned,
`RegularMutationMaterializer.get_payload` line 33, passes it as a
`max_depth` keyword argument that `materialize_inputs` does not accept, so
that call raises `TypeError` before materialization even starts. -/
theorem c10_no_input_depth_bound :
    (∀ fuel (bucket : Bucket) (used : Used),
      materialize_input_field rnd0 iobjsA opA bucket fuel selfField true used
        = .error .recursionError)
    ∧ (∀ (rnd : Rand) (objects : List (String × List Desc))
        (mutations : List (String × OperatorInfo))
        (input_objects : List (String × List (String × Desc))) (fuel : Nat)
        (name : String) (bucket : Bucket) (info : OperatorInfo),
        alookup name mutations = some info →
        mutation_get_payload rnd objects mutations input_objects fuel name bucket
          = .error .typeError) := by
  constructor
  · intro fuel bucket used
    exact (self_input_recursion_diverges bucket fuel used).1
  · intro rnd objects mutations input_objects fuel name bucket info hinfo
    simp [mutation_get_payload, hinfo, py_kwargs_accepted, materialize_inputs_params]

/-- Claim C7 (code bug): after one phrase-gated resend the Retrier checks
`"errors" in response` on the transport's `(response, status)` tuple
(line 39 binds the tuple, line 40 tests it), which is always false, so it
reports success immediately — here against a server that keeps returning
the same non-nullable-field-null error — and the recursion with its
ceiling of 3 is unreachable.  The no-resend path for other error shapes
does hold: the result is `(response, False)` for every transport, i.e.
without consulting it. -/
theorem c7_retrier_single_resend_false_success :
    (Retrier_retry sendAlwaysErrors 9 payload0 (.inl badResp) 0
      = .ok (.inr (some badResp, 200), true))
    ∧ (∀ send : String → SendResult,
      Retrier_retry send 9 "q" (.inl otherResp) 0 = .ok (.inl otherResp, false)) := by
  constructor
  · rfl
  · intro send
    rfl

/-- Claim C3: when the operation's value in the response is a composite
object carrying an `id` field, the engine's interpretation step
(`fengine.py` lines 107-127 and 189-196) mutates the bucket by operation
kind: CREATE inserts the returned identifier under the operation's output
type; UPDATE leaves the bucket unchanged; DELETE removes, under the output
type, exactly the identifier recorded in the materializer's used-objects
map; an UNKNOWN mutation kind leaves the bucket unchanged; and a query
inserts the identifier exactly like CREATE.  The output type is the named
base type of the operation's output descriptor; the bucket insert/remove
helpers are modelled from the spec (`fuzzer/utils.py` is not among the
sources). -/
theorem c3_bucket_mutation_by_operation_kind
    (mutations queries : List (String × OperatorInfo)) (name : String) (used : Used)
    (bucket : Bucket) (fields : List (String × GqlValue)) (info : OperatorInfo)
    (idv : GqlValue)
    (hinfo : alookup name mutations = some info)
    (hid : alookup "id" fields = some idv) :
    (info.mutationType = "CREATE" → ∀ s, idv = .str s →
      interpret_mutation_data mutations name used bucket (.obj fields)
        = .ok (put_in_object_bucket bucket (get_base_oftype info.output).type s))
    ∧ (info.mutationType = "UPDATE" →
      interpret_mutation_data mutations name used bucket (.obj fields) = .ok bucket)
    ∧ (info.mutationType = "DELETE" → ∀ uv,
      alookup (get_base_oftype info.output).type used = some uv →
      interpret_mutation_data mutations name used bucket (.obj fields)
        = .ok (remove_from_object_bucket bucket (get_base_oftype info.output).type uv))
    ∧ (info.mutationType = "UNKNOWN" →
      interpret_mutation_data mutations name used bucket (.obj fields) = .ok bucket)
    ∧ (∀ qinfo, alookup name queries = some qinfo → ∀ s, idv = .str s →
      interpret_query_data queries name bucket (.obj fields)
        = .ok (put_in_object_bucket bucket (get_base_oftype qinfo.output).type s)) := by
  refine ⟨?_, ?_, ?_, ?_, ?_⟩
  · intro hc s hs
    subst hs
    simp [interpret_mutation_data, get_output_type, hinfo, hid, hc]
  · intro hu
    simp [interpret_mutation_data, get_output_type, hinfo, hid, hu]
  · intro hd uv huv
    simp [interpret_mutation_data, get_output_type, hinfo, hid, hd, huv]
  · intro hu
    simp [interpret_mutation_data, get_output_type, hinfo, hid, hu]
  · intro qinfo hq s hs
    subst hs
    simp [interpret_query_data, get_output_type, hq, hid]

theorem c3_bucket_mutation_by_operation_kind_witness :
    (interpret_mutation_data [("deleteUser", opDeleteUser)] "deleteUser"
      [("User", "u1")] [("User", ["u1"])] (.obj [("id", .str "u1")]) = .ok [])
    ∧ (interpret_mutation_data [("createUser", opCreateUser)] "createUser"
      [] [] (.obj [("id", .str "u7")]) = .ok [("User", ["u7"])])
    ∧ (interpret_mutation_data [("updateUser", opUpdateUser)] "updateUser"
      [("User", "u1")] [("User", ["u1"])] (.obj [("id", .str "u1")])
      = .ok [("User", ["u1"])])
    ∧ (interpret_query_data [("getUser", opGetUser)] "getUser"
      [] (.obj [("id", .str "u9")]) = .ok [("User", ["u9"])]) :=
  ⟨((c3_bucket_mutation_by_operation_kind [("deleteUser", opDeleteUser)] []
      "deleteUser" [("User", "u1")] [("User", ["u1"])] [("id", .str "u1")]
      opDeleteUser (.str "u1") rfl rfl).2.2.1 rfl "u1" rfl).trans rfl,
   ((c3_bucket_mutation_by_operation_kind [("createUser", opCreateUser)] []
      "createUser" [] [] [("id", .str "u7")] opCreateUser (.str "u7") rfl rfl).1
      rfl "u7" rfl).trans rfl,
   (c3_bucket_mutation_by_operation_kind [("updateUser", opUpdateUser)] []
      "updateUser" [("User", "u1")] [("User", ["u1"])] [("id", .str "u1")]
      opUpdateUser (.str "u1") rfl rfl).2.1 rfl,
   ((c3_bucket_mutation_by_operation_kind [("getUser", opGetUser)] [("getUser", opGetUser)]
      "getUser" [] [] [("id", .str "u9")] opGetUser (.str "u9") rfl rfl).2.2.2.2
      opGetUser rfl "u9" rfl).trans rfl⟩

/-! ### List/string helper lemmas for the selection invariant -/

theorem infix_app_left {α : Type} {l a : List α} (b : List α) (h : l <:+: a) :
    l <:+: a ++ b := by
  obtain ⟨s, t, rfl⟩ := h
  exact ⟨s, t ++ b, by simp⟩

theorem infix_app_right {α : Type} {l b : List α} (a : List α) (h : l <:+: b) :
    l <:+: a ++ b := by
  obtain ⟨s, t, rfl⟩ := h
  exact ⟨a ++ s, t, by simp⟩

theorem pair_infix_append {x y : Char} : ∀ {a b : List Char},
    [x, y] <:+: a ++ b →
    [x, y] <:+: a ∨ [x, y] <:+: b ∨ (a.getLast? = some x ∧ b.head? = some y) := by
  intro a
  induction a with
  | nil => intro b h; exact Or.inr (Or.inl (by simpa using h))
  | cons c a2 ih =>
    intro b h
    rcases h with ⟨s, t, hst⟩
    cases s with
    | nil =>
      simp only [List.nil_append, List.cons_append] at hst
      obtain ⟨rfl, hyt⟩ : x = c ∧ y :: t = a2 ++ b := by
        have h1 := congrArg List.head? hst
        have h2 := congrArg List.tail hst
        simp at h1 h2
        exact ⟨h1, by rw [h2]⟩
      cases a2 with
      | nil =>
        refine Or.inr (Or.inr ⟨rfl, ?_⟩)
        simp at hyt
        rw [← hyt]
        rfl
      | cons d a3 =>
        simp only [List.cons_append] at hyt
        obtain ⟨rfl, -⟩ : y = d ∧ t = a3 ++ b := by
          have h1 := congrArg List.head? hyt
          have h2 := congrArg List.tail hyt
          simp at h1 h2
          exact ⟨h1, h2⟩
        exact Or.inl ⟨[], a3, by simp⟩
    | cons c2 s2 =>
      simp only [List.cons_append] at hst
      obtain ⟨rfl, hrest⟩ : c2 = c ∧ s2 ++ [x, y] ++ t = a2 ++ b := by
        have h1 := congrArg List.head? hst
        have h2 := congrArg List.tail hst
        simp at h1 h2
        exact ⟨h1, by simpa using h2⟩
      rcases ih ⟨s2, t, hrest⟩ with h1 | h1 | ⟨h1, h2⟩
      · obtain ⟨u, v, huv⟩ := h1
        exact Or.inl ⟨c2 :: u, v, by simp [← huv]⟩
      · exact Or.inr (Or.inl h1)
      · refine Or.inr (Or.inr ⟨?_, h2⟩)
        cases a2 with
        | nil => simp at h1
        | cons d a3 => rw [List.getLast?_cons_cons]; exact h1

theorem chars_ok_nil : chars_ok [] := by
  refine ⟨?_, by simp, by simp⟩
  intro h
  have := h.sublist.length_le
  simp at this

theorem chars_ok_append {a b : List Char} (ha : chars_ok a) (hb : chars_ok b) :
    chars_ok (a ++ b) := by
  refine ⟨?_, ?_, ?_⟩
  · intro h
    rcases pair_infix_append h with h1 | h1 | ⟨h1, h2⟩
    · exact ha.1 h1
    · exact hb.1 h1
    · exact ha.2.2 h1
  · cases a with
    | nil => simpa using hb.2.1
    | cons c a2 => simpa using ha.2.1
  · cases hbb : b with
    | nil => rw [List.append_nil]; exact ha.2.2
    | cons c b2 =>
      rw [List.getLast?_append_cons]
      rw [hbb] at hb
      exact hb.2.2

theorem chars_ok_of_brace_free {s : String} (h : brace_free s) : chars_ok s.data := by
  refine ⟨?_, ?_, ?_⟩
  · intro hin
    exact h.1 (hin.subset (by simp))
  · intro hh
    cases hd : s.data with
    | nil => rw [hd] at hh; simp at hh
    | cons c l =>
      rw [hd] at hh
      simp at hh
      apply h.2
      rw [hd, ← hh]
      exact List.mem_cons_self _ _
  · intro hh
    cases hd : s.data with
    | nil => rw [hd] at hh; simp at hh
    | cons c l =>
      apply h.1
      rw [hd] at hh ⊢
      have : lbChar ∈ (c :: l).getLast? := by rw [hh]; rfl
      exact List.mem_of_mem_getLast? this

/-- The separator-terminated leaf emission `name ++ ", "` is a
well-formed fragment. -/
theorem chars_ok_leaf {nm : String} (h : brace_free nm) :
    chars_ok (nm ++ ", ").data := by
  rw [String.data_append]
  exact chars_ok_append (chars_ok_of_brace_free h)
    (by refine ⟨by decide, by decide, by decide⟩)

/-- The brace-block emission `nm ++ " \x7b" ++ fs ++ "\x7d,"` is a
well-formed fragment whenever the inner fields string is non-empty and
well-formed, and it inherits any leaf selection of the inner string. -/
theorem chars_ok_block {nm fs : String} (hnm : brace_free nm) (hfs : chars_ok fs.data)
    (hne : fs.data ≠ []) :
    chars_ok (nm ++ " \x7b" ++ fs ++ "\x7d,").data
    ∧ ∀ cands, has_leaf_sel cands fs.data →
        has_leaf_sel cands (nm ++ " \x7b" ++ fs ++ "\x7d,").data := by
  have hdata : (nm ++ " \x7b" ++ fs ++ "\x7d,").data
      = ((nm.data ++ [' ', lbChar]) ++ fs.data) ++ [rbChar, ','] := by
    simp [String.data_append, lbChar, rbChar]
  constructor
  · rw [hdata]
    refine ⟨?_, ?_, ?_⟩
    · intro h
      rcases pair_infix_append h with h1 | h1 | ⟨h1, h2⟩
      · rcases pair_infix_append h1 with h2 | h2 | ⟨h2, h3⟩
        · rcases pair_infix_append h2 with h3 | h3 | ⟨h3, h4⟩
          · exact hnm.1 (h3.subset (by simp))
          · exact absurd h3 (by decide)
          · exact hnm.1 (List.mem_of_mem_getLast? (by rw [Option.mem_def, h3]))
        · exact hfs.1 h2
        · exact hfs.2.1 h3
      · exact absurd h1 (by decide)
      · rw [List.getLast?_append_of_ne_nil _ hne] at h1
        exact hfs.2.2 h1
    · cases hdn : nm.data with
      | nil =>
        simp [hdn]
        decide
      | cons c l =>
        simp only [List.cons_append, List.head?_cons, ne_eq, Option.some.injEq]
        intro hc
        apply hnm.2
        rw [hdn, ← hc]
        exact List.mem_cons_self _ _
    · rw [List.getLast?_append_cons]
      simp
      decide
  · intro cands ⟨n, hn, hinf⟩
    refine ⟨n, hn, ?_⟩
    rw [hdata]
    exact infix_app_left _ (infix_app_right _ hinf)

theorem has_leaf_sel_append_left {cands : List String} {a b : List Char}
    (h : has_leaf_sel cands a) : has_leaf_sel cands (a ++ b) := by
  obtain ⟨n, hn, hinf⟩ := h
  exact ⟨n, hn, infix_app_left _ hinf⟩

theorem has_leaf_sel_append_right {cands : List String} {a b : List Char}
    (h : has_leaf_sel cands b) : has_leaf_sel cands (a ++ b) := by
  obtain ⟨n, hn, hinf⟩ := h
  exact ⟨n, hn, infix_app_right _ hinf⟩

theorem has_leaf_sel_mono {cands cands2 : List String} {l : List Char}
    (hsub : ∀ n ∈ cands, n ∈ cands2) (h : has_leaf_sel cands l) :
    has_leaf_sel cands2 l := by
  obtain ⟨n, hn, hinf⟩ := h
  exact ⟨n, hsub n hn, hinf⟩

theorem alookup_mem {α : Type} {k : String} {v : α} :
    ∀ {l : List (String × α)}, alookup k l = some v → (k, v) ∈ l := by
  intro l
  induction l with
  | nil => intro h; simp [alookup] at h
  | cons p rest ih =>
    intro h
    simp only [alookup] at h
    by_cases hk : p.1 = k
    · rw [if_pos hk] at h
      obtain ⟨p1, p2⟩ := p
      dsimp only at hk h
      subst hk
      injection h with h2
      subst h2
      exact List.mem_cons_self _ _
    · rw [if_neg hk] at h
      exact List.mem_cons_of_mem _ (ih h)

theorem mem_leaf_field_names {objects : List (String × List Desc)} {k : String}
    {fs : List Desc} {f : Desc} (hmem : (k, fs) ∈ objects) (hf : f ∈ fs)
    (hleaf : is_leaf_sel f = true) : f.name ∈ leaf_field_names objects := by
  induction objects with
  | nil => cases hmem
  | cons p rest ih =>
    simp only [leaf_field_names, List.foldr_cons]
    rcases List.mem_cons.mp hmem with heq | htail
    · apply List.mem_append_left
      rw [← heq]
      exact List.mem_map_of_mem Desc.name (List.mem_filter.mpr ⟨hf, hleaf⟩)
    · exact List.mem_append_right _ (ih htail)

/-- `get_base_oftype` never returns a wrapper kind that still carries a
nested descriptor: a NON_NULL/LIST result has no ofType. -/
theorem get_base_oftype_wrapper : ∀ (x : Desc),
    ((get_base_oftype x).kind = "NON_NULL" ∨ (get_base_oftype x).kind = "LIST") →
    (get_base_oftype x).ofType = none
  | .mk n k t none => by
    intro h
    simp [get_base_oftype, Desc.ofType]
  | .mk n k t (some inner) => by
    intro h
    by_cases hk : k = "NON_NULL" ∨ k = "LIST"
    · have hg : get_base_oftype (.mk n k t (some inner)) = get_base_oftype inner := by
        simp [get_base_oftype, hk]
      rw [hg] at h ⊢
      exact get_base_oftype_wrapper inner h
    · have hg : get_base_oftype (.mk n k t (some inner)) = .mk n k t (some inner) := by
        simp [get_base_oftype, hk]
      rw [hg] at h
      simp [Desc.kind] at h
      exact absurd h hk

theorem if_bool_false {α : Type} (a b : α) : (if false = true then a else b) = b := rfl

theorem if_bool_true {α : Type} (a b : α) : (if true = true then a else b) = a := rfl

theorem brace_free_empty : brace_free "" := ⟨List.not_mem_nil _, List.not_mem_nil _⟩

theorem data_ne_nil_of_ne_empty {s : String} (h : s ≠ "") : s.data ≠ [] :=
  fun hd => h (String.ext_iff.mpr hd)

/-- The inductive invariant of output materialization: every `.ok` result
is a well-formed selection fragment (no empty brace pair, no leading
closing brace, no trailing opening brace) and, when non-empty, contains a
leaf (scalar) selection drawn from the descriptor itself or the schema's
leaf field names. -/
theorem out_invariant (objects : List (String × List Desc)) (hobj : objects_names_ok objects) :
    ∀ fuel t used s u2, materialize_out objects fuel t used = .ok (s, u2) →
      (match t with
       | .out d _ =>
         brace_free d.name →
         chars_ok s.data ∧ (s ≠ "" →
           has_leaf_sel ((if is_leaf_sel d then [d.name] else [])
             ++ leaf_field_names objects) s.data)
       | .objFields _ =>
         chars_ok s.data ∧ (s ≠ "" → has_leaf_sel (leaf_field_names objects) s.data)
       | .goFields fields acc =>
         (∀ f ∈ fields, brace_free f.name ∧
            (is_leaf_sel f = true → f.name ∈ leaf_field_names objects)) →
         chars_ok acc.data →
         (acc ≠ "" → has_leaf_sel (leaf_field_names objects) acc.data) →
         chars_ok s.data ∧ (s ≠ "" → has_leaf_sel (leaf_field_names objects) s.data)) := by
  intro fuel
  induction fuel using Nat.strong_induction_on with
  | _ fuel ih =>
    cases fuel with
    | zero =>
      intro t used s u2 h
      simp [materialize_out] at h
    | succ f =>
      intro t used s u2 h
      cases t with
      | out d includeName =>
        intro hname
        have hnm0 : brace_free (if includeName = true then d.name else "") := by
          cases includeName
          · exact brace_free_empty
          · exact hname
        rw [mo_succ_out] at h
        by_cases hk : d.kind = "OBJECT"
        · rw [if_pos hk] at h
          cases heq : materialize_out objects f (.objFields d.type) used with
          | error e => rw [heq] at h; exact absurd h (by simp)
          | ok p =>
            obtain ⟨fs, u3⟩ := p
            rw [heq] at h
            dsimp only at h
            have hf : chars_ok fs.data ∧
                (fs ≠ "" → has_leaf_sel (leaf_field_names objects) fs.data) :=
              ih f (Nat.lt_succ_self f) (.objFields d.type) used fs u3 heq
            by_cases hfs : fs = ""
            · rw [if_neg (by simp [hfs])] at h
              simp only [Except.ok.injEq, Prod.mk.injEq] at h
              obtain ⟨hs, hu⟩ := h
              subst hs
              exact ⟨chars_ok_nil, fun hcon => absurd rfl hcon⟩
            · rw [if_pos hfs] at h
              simp only [Except.ok.injEq, Prod.mk.injEq] at h
              obtain ⟨hs, hu⟩ := h
              subst hs
              have hblock := chars_ok_block hnm0 hf.1 (data_ne_nil_of_ne_empty hfs)
              refine ⟨hblock.1, fun _ => ?_⟩
              apply has_leaf_sel_mono (fun n hn => List.mem_append_right _ hn)
              exact hblock.2 _ (hf.2 hfs)
        · rw [if_neg hk] at h
          by_cases hnn : d.kind = "NON_NULL" ∨ d.kind = "LIST"
          · rw [if_pos hnn] at h
            cases ho : d.ofType with
            | none => rw [ho] at h; exact absurd h (by simp)
            | some inner =>
              rw [ho] at h
              dsimp only at h
              by_cases hb : (get_base_oftype inner).kind = "SCALAR"
              · rw [if_pos hb] at h
                simp only [Except.ok.injEq, Prod.mk.injEq] at h
                obtain ⟨hs, hu⟩ := h
                subst hs
                have hleafd : is_leaf_sel d = true := by
                  simp [is_leaf_sel, hk, hnn, ho, hb]
                refine ⟨chars_ok_leaf hname, fun _ => ?_⟩
                refine ⟨d.name, ?_, List.infix_refl _⟩
                simp [hleafd]
              · rw [if_neg hb] at h
                cases heq : materialize_out objects f (.out (get_base_oftype inner) false) used with
                | error e => rw [heq] at h; exact absurd h (by simp)
                | ok p =>
                  obtain ⟨s0, u3⟩ := p
                  rw [heq] at h
                  dsimp only at h
                  by_cases hbo : (get_base_oftype inner).kind = "OBJECT"
                  · -- the base is an object: its result is "" or a brace block over its fields
                    cases f with
                    | zero => simp [materialize_out] at heq
                    | succ f2 =>
                      rw [mo_succ_out, if_pos hbo] at heq
                      cases heq2 : materialize_out objects f2
                          (.objFields (get_base_oftype inner).type) used with
                      | error e => rw [heq2] at heq; exact absurd heq (by simp)
                      | ok q =>
                        obtain ⟨fs2, u4⟩ := q
                        rw [heq2] at heq
                        dsimp only at heq
                        have hf2 : chars_ok fs2.data ∧
                            (fs2 ≠ "" → has_leaf_sel (leaf_field_names objects) fs2.data) :=
                          ih f2 (by omega) (.objFields (get_base_oftype inner).type) used fs2 u4 heq2
                        by_cases hfs2 : fs2 = ""
                        · rw [if_neg (by simp [hfs2])] at heq
                          simp only [Except.ok.injEq, Prod.mk.injEq] at heq
                          obtain ⟨hs0, hu3⟩ := heq
                          subst hs0
                          rw [if_neg (by simp)] at h
                          simp only [Except.ok.injEq, Prod.mk.injEq] at h
                          obtain ⟨hs, hu⟩ := h
                          subst hs
                          exact ⟨chars_ok_nil, fun hcon => absurd rfl hcon⟩
                        · rw [if_pos hfs2] at heq
                          simp only [if_bool_false] at heq
                          simp only [Except.ok.injEq, Prod.mk.injEq] at heq
                          obtain ⟨hs0, hu3⟩ := heq
                          subst hs0
                          have hblock := chars_ok_block brace_free_empty hf2.1
                            (data_ne_nil_of_ne_empty hfs2)
                          have hXne : ("" ++ " \x7b" ++ fs2 ++ "\x7d,") ≠ "" := by
                            intro hX
                            have := congrArg String.data hX
                            simp [String.data_append] at this
                          rw [if_pos hXne] at h
                          simp only [Except.ok.injEq, Prod.mk.injEq] at h
                          obtain ⟨hs, hu⟩ := h
                          subst hs
                          have hXleaf : has_leaf_sel (leaf_field_names objects)
                              ("" ++ " \x7b" ++ fs2 ++ "\x7d,").data :=
                            hblock.2 _ (hf2.2 hfs2)
                          cases includeName with
                          | false =>
                            simp only [if_bool_false]
                            refine ⟨hblock.1, fun _ => ?_⟩
                            exact has_leaf_sel_mono (fun n hn => List.mem_append_right _ hn) hXleaf
                          | true =>
                            simp only [eq_self_iff_true, if_true]
                            constructor
                            · rw [String.data_append, String.data_append]
                              exact chars_ok_append
                                (chars_ok_append (chars_ok_of_brace_free hname) hblock.1)
                                ⟨by decide, by decide, by decide⟩
                            · intro _
                              rw [String.data_append, String.data_append]
                              apply has_leaf_sel_mono (fun n hn => List.mem_append_right _ hn)
                              exact has_leaf_sel_append_left
                                (has_leaf_sel_append_right hXleaf)
                  · by_cases hbw : (get_base_oftype inner).kind = "NON_NULL"
                        ∨ (get_base_oftype inner).kind = "LIST"
                    · have hnone := get_base_oftype_wrapper inner hbw
                      cases f with
                      | zero => simp [materialize_out] at heq
                      | succ f2 =>
                        rw [mo_succ_out, if_neg hbo, if_pos hbw, hnone] at heq
                        exact absurd heq (by simp)
                    · cases f with
                      | zero => simp [materialize_out] at heq
                      | succ f2 =>
                        rw [mo_succ_out, if_neg hbo, if_neg hbw] at heq
                        simp only [if_bool_false] at heq
                        simp only [Except.ok.injEq, Prod.mk.injEq] at heq
                        obtain ⟨hs0, hu3⟩ := heq
                        subst hs0
                        rw [if_neg (by simp)] at h
                        simp only [Except.ok.injEq, Prod.mk.injEq] at h
                        obtain ⟨hs, hu⟩ := h
                        subst hs
                        exact ⟨chars_ok_nil, fun hcon => absurd rfl hcon⟩
          · rw [if_neg hnn] at h
            simp only [Except.ok.injEq, Prod.mk.injEq] at h
            obtain ⟨hs, hu⟩ := h
            subst hs
            cases includeName with
            | false =>
              simp only [if_bool_false]
              exact ⟨chars_ok_nil, fun hcon => absurd rfl hcon⟩
            | true =>
              simp only [eq_self_iff_true, if_true]
              have hleafd : is_leaf_sel d = true := by
                simp [is_leaf_sel, hk, hnn]
              refine ⟨chars_ok_leaf hname, fun _ => ?_⟩
              refine ⟨d.name, ?_, List.infix_refl _⟩
              simp [hleafd]
      | objFields objectName =>
        rw [mo_succ_objFields] at h
        by_cases hg : MAX_OBJECT_CYCLES ≤ used.count objectName
        · rw [if_pos hg] at h
          simp only [Except.ok.injEq, Prod.mk.injEq] at h
          obtain ⟨hs, hu⟩ := h
          subst hs
          exact ⟨chars_ok_nil, fun hcon => absurd rfl hcon⟩
        · rw [if_neg hg] at h
          cases hlk : alookup objectName objects with
          | none => rw [hlk] at h; exact absurd h (by simp)
          | some fields =>
            rw [hlk] at h
            dsimp only at h
            refine ih f (Nat.lt_succ_self f) (.goFields fields "") _ s u2 h ?_ chars_ok_nil ?_
            · intro f2 hf2
              have hmem := alookup_mem hlk
              exact ⟨hobj _ hmem _ hf2, fun hleaf => mem_leaf_field_names hmem hf2 hleaf⟩
            · intro hcon; exact absurd rfl hcon
      | goFields fields acc =>
        intro hfields hacc haccleaf
        rw [mo_succ_goFields] at h
        cases fields with
        | nil =>
          dsimp only at h
          simp only [Except.ok.injEq, Prod.mk.injEq] at h
          obtain ⟨hs, hu⟩ := h
          subst hs
          exact ⟨hacc, haccleaf⟩
        | cons fieldd rest =>
          dsimp only at h
          cases heq : materialize_out objects f (.out fieldd true) used with
          | error e => rw [heq] at h; exact absurd h (by simp)
          | ok p =>
            obtain ⟨s0, u3⟩ := p
            rw [heq] at h
            dsimp only at h
            have hfd := hfields fieldd (List.mem_cons_self _ _)
            have h0 : chars_ok s0.data ∧ (s0 ≠ "" →
                has_leaf_sel ((if is_leaf_sel fieldd then [fieldd.name] else [])
                  ++ leaf_field_names objects) s0.data) :=
              ih f (Nat.lt_succ_self f) (.out fieldd true) used s0 u3 heq hfd.1
            have hcands : ∀ n ∈ ((if is_leaf_sel fieldd then [fieldd.name] else [])
                ++ leaf_field_names objects), n ∈ leaf_field_names objects := by
              intro n hn
              rcases List.mem_append.mp hn with hn1 | hn2
              · cases hls : is_leaf_sel fieldd with
                | false => rw [hls] at hn1; simp at hn1
                | true =>
                  rw [hls] at hn1
                  simp at hn1
                  subst hn1
                  exact hfd.2 hls
              · exact hn2
            by_cases hcnd : s0 ≠ "" ∧ s0 ≠ "\x7b\x7d"
            · rw [if_pos hcnd] at h
              refine ih f (Nat.lt_succ_self f) (.goFields rest (acc ++ s0)) u3 s u2 h
                (fun f2 hf2 => hfields f2 (List.mem_cons_of_mem _ hf2)) ?_ ?_
              · rw [String.data_append]
                exact chars_ok_append hacc h0.1
              · intro _
                rw [String.data_append]
                exact has_leaf_sel_append_right (has_leaf_sel_mono hcands (h0.2 hcnd.1))
            · rw [if_neg hcnd] at h
              exact ih f (Nat.lt_succ_self f) (.goFields rest acc) u3 s u2 h
                (fun f2 hf2 => hfields f2 (List.mem_cons_of_mem _ hf2)) hacc haccleaf

/-- Claim C9: output materialization never emits an empty selection set.
Every completed `materialize_output` run returns either the empty string
or a string that contains no empty brace pair `\x7b\x7d` and carries at
least one leaf (scalar-style) selection `name ++ ", "` — the descriptor's
own name when it is itself selected as a leaf, or a leaf field name of the
schema.  Moreover a field whose entire nested selection is empty is
omitted together with its field name: an OBJECT descriptor whose fields
string is empty, and a wrapped (NON_NULL/LIST) descriptor whose base
selection is empty, both materialize to the empty string.  The hypotheses
say the schema's names contain no brace characters, as GraphQL names
cannot. -/
theorem c9_no_empty_selection_sets (objects : List (String × List Desc)) (fuel : Nat)
    (d : Desc) (used : List String) (includeName : Bool) (r : String) (u2 : List String)
    (hobj : objects_names_ok objects) (hname : brace_free d.name)
    (h : materialize_output objects fuel d used includeName = .ok (r, u2)) :
    no_empty_braces r
    ∧ (r = "" ∨ ∃ n, ((is_leaf_sel d = true ∧ n = d.name) ∨ n ∈ leaf_field_names objects)
        ∧ (n ++ ", ").data <:+: r.data)
    ∧ (∀ fuel2 u3, d.kind = "OBJECT" →
        materialize_output_object_fields objects fuel2 d.type used = .ok ("", u3) →
        materialize_output objects (fuel2 + 1) d used includeName = .ok ("", u3))
    ∧ (∀ fuel2 u3 inner, (d.kind = "NON_NULL" ∨ d.kind = "LIST") → d.ofType = some inner →
        (get_base_oftype inner).kind ≠ "SCALAR" →
        materialize_out objects fuel2 (.out (get_base_oftype inner) false) used
          = .ok ("", u3) →
        materialize_output objects (fuel2 + 1) d used includeName = .ok ("", u3)) := by
  have hinv : chars_ok r.data ∧ (r ≠ "" →
      has_leaf_sel ((if is_leaf_sel d then [d.name] else [])
        ++ leaf_field_names objects) r.data) :=
    out_invariant objects hobj fuel (.out d includeName) used r u2 h hname
  refine ⟨hinv.1.1, ?_, ?_, ?_⟩
  · by_cases hr : r = ""
    · exact Or.inl hr
    · obtain ⟨n, hn, hinf⟩ := hinv.2 hr
      refine Or.inr ⟨n, ?_, hinf⟩
      rcases List.mem_append.mp hn with hn1 | hn2
      · cases hls : is_leaf_sel d with
        | false => rw [hls] at hn1; simp at hn1
        | true =>
          rw [hls] at hn1
          simp at hn1
          exact Or.inl ⟨rfl, hn1⟩
      · exact Or.inr hn2
  · intro fuel2 u3 hkk hzero
    show materialize_out objects (fuel2 + 1) (.out d includeName) used = .ok ("", u3)
    rw [mo_succ_out, if_pos hkk]
    have hz : materialize_out objects fuel2 (.objFields d.type) used = .ok ("", u3) := hzero
    rw [hz]
    dsimp only
    rw [if_neg (by simp)]
  · intro fuel2 u3 inner hkk hoo hbS hzero
    have hko : ¬d.kind = "OBJECT" := by
      rcases hkk with h1 | h1 <;> rw [h1] <;> decide
    show materialize_out objects (fuel2 + 1) (.out d includeName) used = .ok ("", u3)
    rw [mo_succ_out, if_neg hko, if_pos hkk, hoo]
    dsimp only
    rw [if_neg hbS, hzero]
    dsimp only
    rw [if_neg (by simp)]

theorem c9_no_empty_selection_sets_witness :
    no_empty_braces " \x7bid, friend \x7bid, \x7d,, \x7d,"
    ∧ (" \x7bid, friend \x7bid, \x7d,, \x7d," = ""
      ∨ ∃ n, ((is_leaf_sel topA = true ∧ n = topA.name) ∨ n ∈ leaf_field_names objectsSelf)
        ∧ (n ++ ", ").data <:+: (" \x7bid, friend \x7bid, \x7d,, \x7d," : String).data) :=
  let T := c9_no_empty_selection_sets objectsSelf 30 topA [] false
    " \x7bid, friend \x7bid, \x7d,, \x7d," ["A", "A"]
    (by unfold objects_names_ok brace_free; decide)
    (by unfold brace_free; decide) rfl
  ⟨T.1, T.2.1⟩

end GraphQLer
